import Mathlib

/-!
Verification of the HomeApplianceService voice-call engine.

Shallow embedding of the playback scheduler, session orchestrator teardown
(`src/services/geminiService.ts`, class `GeminiLiveService`) and the transcript
accumulation logic of the application component (`src/unnamed/part_001`,
`handleStartCall`). Times (audio-clock readings, segment durations) are
modelled as rationals; playback handles (`AudioBufferSourceNode`s) carry an
identifier, the start time passed to `start()`, their buffer duration and a
`stopped` flag recording whether `stop()` was called on them.
-/

namespace HomeApplianceService

/-- A playback handle: models one `AudioBufferSourceNode` created in
`handleServerMessage`. `startTime` is the argument passed to `source.start`,
`duration` the decoded buffer's duration, `stopped` whether `src.stop()` has
been called on it. -/
structure AudioSource where
  id : Nat
  startTime : ℚ
  duration : ℚ
  stopped : Bool
deriving DecidableEq, Repr

/-- The playback-scheduler state of `GeminiLiveService`: the cursor
`nextStartTime` (field initialised to 0, line 36), the set `this.sources` of
active handles (modelled as the list `active` of their ids), a log `srcs` of
every handle ever created (so that "was stopped" is expressible), and a
counter supplying fresh handle ids. -/
structure SchedState where
  nextStartTime : ℚ
  active : List Nat
  srcs : List AudioSource
  counter : Nat
deriving DecidableEq, Repr

/-- Scheduler state at construction / session start. -/
def SchedState.init : SchedState := ⟨0, [], [], 0⟩

/-- The atomic scheduler events of `handleServerMessage` (lines 148–182).
The audio branch is split at its `await decodeAudioData` suspension point:
`preDecode` is the anchoring statement
`this.nextStartTime = Math.max(this.nextStartTime, currentTime)` executed
before the await (line 150) with `now` the device-clock reading, and
`postDecodeOk`/`postDecodeErr` the code after the await (success: create the
source, `start(nextStartTime)`, advance the cursor, add to `sources`;
failure: the `catch` only logs). `interrupted` is the interruption branch
(lines 177–182) and `ended` the `'ended'` listener (lines 163–165). -/
inductive Ev where
  | preDecode (now : ℚ)
  | postDecodeOk (d : ℚ)
  | postDecodeErr
  | interrupted
  | ended (i : Nat)
deriving DecidableEq, Repr

/-- `this.sources.forEach(src => src.stop()); this.sources.clear()`:
every active handle is stopped and the active set is emptied. Shared by the
interruption branch (lines 179–180) and `disconnect` (lines 220–221). -/
def stopActive (s : SchedState) : SchedState :=
  { s with
    active := [],
    srcs := s.srcs.map fun a =>
      if a.id ∈ s.active then { a with stopped := true } else a }

/-- One scheduler event, translated statement-by-statement from
`handleServerMessage`. -/
def step (s : SchedState) : Ev → SchedState
  | .preDecode now => { s with nextStartTime := max s.nextStartTime now }
  | .postDecodeOk d =>
      { s with
        nextStartTime := s.nextStartTime + d,
        active := s.counter :: s.active,
        srcs := ⟨s.counter, s.nextStartTime, d, false⟩ :: s.srcs,
        counter := s.counter + 1 }
  | .postDecodeErr => s
  | .interrupted => { stopActive s with nextStartTime := 0 }
  | .ended i => { s with active := s.active.erase i }

/-- Run a sequence of scheduler events. -/
def run (s : SchedState) (evs : List Ev) : SchedState := evs.foldl step s

/-- A complete, uninterleaved enqueue of one decoded segment: the anchoring
`max` followed by the post-decode scheduling, with `now` the device clock at
the anchoring and `d` the decoded segment's duration. -/
def enqueue (s : SchedState) (now d : ℚ) : SchedState :=
  step (step s (.preDecode now)) (.postDecodeOk d)

/-- Run a sequence of uninterleaved enqueues, each given as a pair
(clock reading, segment duration). -/
def runEnqueues (s : SchedState) (l : List (ℚ × ℚ)) : SchedState :=
  l.foldl (fun s p => enqueue s p.1 p.2) s

/-- The start times an enqueue sequence produces, computed directly from the
scheduling recurrence: each segment starts at `max cursor now` and the cursor
then advances by the duration. -/
def startsFrom (next : ℚ) : List (ℚ × ℚ) → List ℚ
  | [] => []
  | (now, d) :: rest => max next now :: startsFrom (max next now + d) rest

/-- The handles an enqueue sequence creates, in creation order. -/
def mkSources (next : ℚ) (c : Nat) : List (ℚ × ℚ) → List AudioSource
  | [] => []
  | (now, d) :: rest =>
      ⟨c, max next now, d, false⟩ :: mkSources (max next now + d) (c + 1) rest

/-- Gapless chaining: consecutive start times are separated by at least the
earlier segment's duration. -/
def gapOK : List ℚ → List ℚ → Prop
  | s1 :: s2 :: ss, d :: ds => s1 + d ≤ s2 ∧ gapOK (s2 :: ss) ds
  | _, _ => True

lemma mkSources_map_startTime (l : List (ℚ × ℚ)) :
    ∀ next c, (mkSources next c l).map AudioSource.startTime = startsFrom next l := by
  induction l with
  | nil => intro next c; rfl
  | cons p rest ih =>
      intro next c
      cases p with
      | mk now d => simp [mkSources, startsFrom, ih]

lemma runEnqueues_srcs (l : List (ℚ × ℚ)) :
    ∀ s : SchedState,
      (runEnqueues s l).srcs
        = (mkSources s.nextStartTime s.counter l).reverse ++ s.srcs := by
  induction l with
  | nil => intro s; simp [runEnqueues, mkSources]
  | cons p rest ih =>
      intro s
      cases p with
      | mk now d =>
          have h := ih (enqueue s now d)
          simp only [runEnqueues, List.foldl_cons] at h ⊢
          rw [h]
          simp [enqueue, step, mkSources, List.append_assoc]

lemma gapOK_startsFrom (l : List (ℚ × ℚ)) :
    ∀ next, gapOK (startsFrom next l) (l.map Prod.snd) := by
  induction l with
  | nil => intro next; simp [startsFrom, gapOK]
  | cons p rest ih =>
      intro next
      cases p with
      | mk now d =>
          cases rest with
          | nil => simp [startsFrom, gapOK]
          | cons q rest2 =>
              cases q with
              | mk now2 d2 =>
                  simp only [startsFrom, List.map, gapOK]
                  exact ⟨le_max_left _ _, ih (max next now + d)⟩

/-- Every handle that was active in `old` is stopped in `new`'s log: no
previously active handle is left playing. -/
def allPrevStopped (old new : SchedState) : Bool :=
  new.srcs.all fun a => !old.active.contains a.id || a.stopped

/-- Well-formedness: the id counter is fresh (strictly above every id already
used in the active set and the log). Holds at `init` and is preserved by
`step`. -/
def fresh (s : SchedState) : Bool :=
  s.active.all (fun i => decide (i < s.counter))
    && s.srcs.all (fun a => decide (a.id < s.counter))

/-- Modelled from the spec: `decodeAudioData` (called `decodeToPlayableBuffer`
in the spec, §4.1) lives in `utils/audioUtils.ts`, which is not among the
sources. Per the spec it interprets the bytes as raw 16-bit little-endian PCM
at the target sample rate, yielding a single-channel buffer, and "fails with a
`DecodeError` if the byte length is not a positive even number". We model the
result by the only attribute the scheduler uses, the buffer's duration
(samples / sampleRate), and failure by `none`. -/
def decodeAudioData (bytes : List Nat) (sampleRate : ℚ) : Option ℚ :=
  if bytes.length ≠ 0 ∧ bytes.length % 2 = 0 then
    some ((bytes.length / 2 : ℕ) / sampleRate)
  else none

/-- The whole audio branch of `handleServerMessage` run without interleaving:
anchor the cursor (line 150), then attempt the decode; on success schedule the
buffer, on failure the `catch` only logs (lines 171–173). -/
def processAudio (s : SchedState) (now : ℚ) (bytes : List Nat) : SchedState :=
  match decodeAudioData bytes 24000 with
  | none => step (step s (.preDecode now)) .postDecodeErr
  | some d => step (step s (.preDecode now)) (.postDecodeOk d)

/-- The whole-service resource state of `GeminiLiveService`: which resources
are currently held (`this.processor`, `this.source`, `this.stream`,
`this.inputAudioContext`, `this.outputAudioContext`, `this.outputNode` are
non-null), the session (`none` before `connect`, `some true` while open,
`some false` once closed — `disconnect` closes it but never nulls the field),
and the playback-scheduler state. -/
structure ServiceState where
  session : Option Bool
  processor : Bool
  source : Bool
  stream : Bool
  inputCtx : Bool
  outputCtx : Bool
  outputNode : Bool
  sched : SchedState
deriving DecidableEq, Repr

/-- The field initialisers of `GeminiLiveService` (lines 30–38): everything
null, scheduler at its initial state. This is also the state in which
`connect` has never completed. -/
def ServiceState.init : ServiceState :=
  ⟨none, false, false, false, false, false, false, SchedState.init⟩

/-- `disconnect` (lines 185–223), translated step by step: close the session
if present (the field itself is kept), disconnect and null the processor and
source, stop and null the stream's tracks, close and null both audio
contexts, then stop every queued handle, clear the set and reset the
cursor. Every step is guarded by a null check, so the function is total from
any state. -/
def disconnect (s : ServiceState) : ServiceState :=
  { session := s.session.map fun _ => false,
    processor := false,
    source := false,
    stream := false,
    inputCtx := false,
    outputCtx := false,
    outputNode := s.outputNode,
    sched := { stopActive s.sched with nextStartTime := 0 } }

/-- All resources the spec's teardown clause names are released: no capture
processor or source, no microphone stream, both audio contexts closed, no
queued playback handle, cursor reset. -/
def released (s : ServiceState) : Prop :=
  s.processor = false ∧ s.source = false ∧ s.stream = false
    ∧ s.inputCtx = false ∧ s.outputCtx = false
    ∧ s.sched.active = [] ∧ s.sched.nextStartTime = 0

instance : DecidablePred released := fun s => by
  unfold released; infer_instance

/-- `connect` up to and including the microphone acquisition (lines 51–71):
step 1 unconditionally creates both audio contexts and the output gain node;
step 2 requests the microphone stream and, when access is denied, logs and
rethrows the error. Returns the service state as left behind together with
`some ()` when `connect` rejected (the caught error, rethrown to the caller)
and `none` when the microphone was granted. -/
def connectThroughMicAcquisition (s : ServiceState) (micGranted : Bool) :
    ServiceState × Option Unit :=
  let s1 := { s with inputCtx := true, outputCtx := true, outputNode := true }
  if micGranted then ({ s1 with stream := true }, none) else (s1, some ())

/-- A chat message of the application component (`ChatMessage` without the
`id`/`timestamp` bookkeeping the transcript logic never reads):
`role = true` stands for `'user'`, `false` for `'model'`. -/
structure ChatMsg where
  role : Bool
  text : String
  isFinal : Bool
deriving DecidableEq, Repr

/-- The guard `!text.trim()`: the fragment's text is empty or whitespace-only
(trimming removes exactly the leading and trailing whitespace, so the trimmed
text is empty iff every character is whitespace). -/
def isBlank (text : String) : Bool := text.data.all Char.isWhitespace

/-- The `setMessages` updater of `handleStartCall` (the `onMessage` callback,
`src/unnamed/part_001` lines 38–67): if the last message has the fragment's
role and is not final, extend it in place (concatenating the text and taking
the fragment's `isFinal`); otherwise drop a fragment whose text trims to
empty, else append a new message. -/
def applyTranscriptFragment (msgs : List ChatMsg) (text : String)
    (isUser isFinal : Bool) : List ChatMsg :=
  match msgs.getLast? with
  | some lastMsg =>
      if lastMsg.role == isUser && !lastMsg.isFinal then
        msgs.dropLast
          ++ [{ lastMsg with text := lastMsg.text ++ text, isFinal := isFinal }]
      else if isBlank text then msgs
      else msgs ++ [⟨isUser, text, isFinal⟩]
  | none =>
      if isBlank text then msgs
      else msgs ++ [⟨isUser, text, isFinal⟩]

/-- Feed a sequence of non-final fragments of one speaker. -/
def feedPending (msgs : List ChatMsg) (u : Bool) (ts : List String) :
    List ChatMsg :=
  ts.foldl (fun m t => applyTranscriptFragment m t u false) msgs

/-- No pending utterance of speaker `u` to append to: the transcript is empty
or its last message is of the other speaker or already final. -/
def noPending (msgs : List ChatMsg) (u : Bool) : Bool :=
  match msgs.getLast? with
  | none => true
  | some lastMsg => lastMsg.role != u || lastMsg.isFinal

/-- `inlineData` of a part of a server message: the base64 audio payload. -/
structure InlineData where
  data : Option String
deriving DecidableEq, Repr

/-- One part of a model turn. -/
structure Part where
  inlineData : Option InlineData
deriving DecidableEq, Repr

/-- The model turn of a server message: an optional list of parts. -/
structure ModelTurn where
  parts : Option (List Part)
deriving DecidableEq, Repr

/-- A transcription fragment attached to a server message. -/
structure Transcription where
  text : Option String
deriving DecidableEq, Repr

/-- `serverContent` of a `LiveServerMessage`, with the fields
`handleServerMessage` reads. -/
structure ServerContent where
  inputTranscription : Option Transcription
  outputTranscription : Option Transcription
  modelTurn : Option ModelTurn
  turnComplete : Bool
  interrupted : Bool
deriving DecidableEq, Repr

/-- An inbound server message. -/
structure LiveServerMessage where
  serverContent : Option ServerContent
deriving DecidableEq, Repr

/-- The optional-chaining expression
`message.serverContent?.modelTurn?.parts?.[0]?.inlineData?.data`
(line 148): only index 0 of the parts list is ever consulted. -/
def extractBase64Audio (m : LiveServerMessage) : Option String :=
  ((((m.serverContent.bind ServerContent.modelTurn).bind
      ModelTurn.parts).bind List.head?).bind Part.inlineData).bind InlineData.data

/-- The audio payload the handler actually enqueues from a message: the guard
`if (base64Audio && ...)` treats the empty string as falsy, so an empty
payload enqueues nothing. -/
def audioToEnqueue (m : LiveServerMessage) : Option String :=
  match extractBase64Audio m with
  | some s => if s = "" then none else some s
  | none => none

/-- C1: every enqueued segment anchors the cursor to
`max nextStartTime now`, starts exactly at that anchored cursor, advances the
cursor by its duration, and is added to the active set, whose `ended` hook
removes it again; consequently, over any uninterrupted sequence of enqueues
with durations `d1..dn`, `start (i+1) ≥ start i + d i` with the minimal
anchoring (`max` of cursor and clock). -/
theorem C1_enqueue_scheduling :
    (∀ (s : SchedState) (now d : ℚ),
      (step s (.preDecode now)).nextStartTime = max s.nextStartTime now
      ∧ (enqueue s now d).srcs
          = ⟨s.counter, max s.nextStartTime now, d, false⟩ :: s.srcs
      ∧ (enqueue s now d).nextStartTime = max s.nextStartTime now + d
      ∧ (enqueue s now d).active = s.counter :: s.active
      ∧ (step (enqueue s now d) (.ended s.counter)).active = s.active)
    ∧ (∀ (s : SchedState) (l : List (ℚ × ℚ)),
        (runEnqueues s l).srcs.map AudioSource.startTime
          = (startsFrom s.nextStartTime l).reverse
              ++ s.srcs.map AudioSource.startTime)
    ∧ ∀ (l : List (ℚ × ℚ)) (next : ℚ),
        gapOK (startsFrom next l) (l.map Prod.snd) := by
  refine ⟨fun s now d => ?_, fun s l => ?_, fun l next => gapOK_startsFrom l next⟩
  · simp [enqueue, step, List.erase_cons_head]
  · rw [runEnqueues_srcs, List.map_append, List.map_reverse,
      mkSources_map_startTime]

/-- C2: after the interruption branch, the active set is empty, every handle
that was active has been stopped, the cursor is reset to 0, and the next
enqueue therefore anchors to the device clock's "now" rather than the stale
cursor. -/
theorem C2_interrupt_clears_state (s : SchedState) (now : ℚ) (hnow : 0 ≤ now) :
    (step s .interrupted).active = []
    ∧ (step s .interrupted).nextStartTime = 0
    ∧ allPrevStopped s (step s .interrupted) = true
    ∧ (step (step s .interrupted) (.preDecode now)).nextStartTime = now := by
  refine ⟨rfl, rfl, ?_, ?_⟩
  · simp only [allPrevStopped, step, stopActive, List.all_map, List.all_eq_true]
    intro a _
    by_cases h : a.id ∈ s.active <;> simp [h]
  · simp [step, stopActive, max_eq_right hnow]

/-- Witness for C2 at a concrete scheduler state holding one active handle,
with the device clock at 1. -/
theorem C2_interrupt_clears_state_witness :
    (0 : ℚ) ≤ 1
    ∧ ((step ⟨5, [0], [⟨0, 2, 3, false⟩], 1⟩ .interrupted).active = []
       ∧ (step ⟨5, [0], [⟨0, 2, 3, false⟩], 1⟩ .interrupted).nextStartTime = 0
       ∧ allPrevStopped ⟨5, [0], [⟨0, 2, 3, false⟩], 1⟩
           (step ⟨5, [0], [⟨0, 2, 3, false⟩], 1⟩ .interrupted) = true
       ∧ (step (step ⟨5, [0], [⟨0, 2, 3, false⟩], 1⟩ .interrupted)
             (.preDecode 1)).nextStartTime = 1) :=
  ⟨by decide, C2_interrupt_clears_state ⟨5, [0], [⟨0, 2, 3, false⟩], 1⟩ 1 (by decide)⟩

/-- C3 counterexample: the claim says a failed decode leaves the scheduler's
state — including `nextStartTime` — unchanged, but the anchoring
`nextStartTime = max(nextStartTime, currentTime)` runs before the `try`
block: with the cursor at 0 and the device clock at 5, processing a malformed
one-byte segment leaves the cursor at 5, not 0. -/
theorem C3_counterexample :
    decodeAudioData [0] 24000 = none
    ∧ processAudio ⟨0, [], [], 0⟩ 5 [0] ≠ ⟨0, [], [], 0⟩
    ∧ (processAudio ⟨0, [], [], 0⟩ 5 [0]).nextStartTime = 5 := by decide

/-- C3 (amended): a failed decode is caught (the handler returns normally);
it leaves the active set, the handle log and the id counter unchanged, and
moves `nextStartTime` only to `max nextStartTime now`; since the device clock
is monotone, any later enqueue behaves exactly as if the failed message had
never arrived; and decoding rejects zero-length and odd-length buffers. -/
theorem C3_decode_failure_amended (s : SchedState) (now now' d : ℚ)
    (bytes : List Nat) (hbad : decodeAudioData bytes 24000 = none)
    (hmono : now ≤ now') :
    (processAudio s now bytes).active = s.active
    ∧ (processAudio s now bytes).srcs = s.srcs
    ∧ (processAudio s now bytes).counter = s.counter
    ∧ (processAudio s now bytes).nextStartTime = max s.nextStartTime now
    ∧ enqueue (processAudio s now bytes) now' d = enqueue s now' d
    ∧ decodeAudioData [] 24000 = none
    ∧ decodeAudioData [0] 24000 = none := by
  refine ⟨?_, ?_, ?_, ?_, ?_, by decide, by decide⟩ <;>
    simp [processAudio, hbad, enqueue, step, max_assoc, max_eq_right hmono]

/-- Witness for C3 (amended): cursor 0, clock 5 at the failed message, clock 6
at the subsequent enqueue of a 1-second segment. -/
theorem C3_decode_failure_amended_witness :
    decodeAudioData [0] 24000 = none
    ∧ (5 : ℚ) ≤ 6
    ∧ ((processAudio ⟨0, [], [], 0⟩ 5 [0]).active = ([] : List Nat)
       ∧ (processAudio ⟨0, [], [], 0⟩ 5 [0]).srcs = ([] : List AudioSource)
       ∧ (processAudio ⟨0, [], [], 0⟩ 5 [0]).counter = 0
       ∧ (processAudio ⟨0, [], [], 0⟩ 5 [0]).nextStartTime = max 0 5
       ∧ enqueue (processAudio ⟨0, [], [], 0⟩ 5 [0]) 6 1 = enqueue ⟨0, [], [], 0⟩ 6 1
       ∧ decodeAudioData [] 24000 = none
       ∧ decodeAudioData [0] 24000 = none) :=
  ⟨by decide, by decide,
    C3_decode_failure_amended ⟨0, [], [], 0⟩ 5 6 1 [0] (by decide) (by decide)⟩

/-- The device-clock readings observed along a scheduler trace (the
`currentTime` argument of each anchoring step). -/
def clockReads : List Ev → List ℚ
  | [] => []
  | .preDecode now :: rest => now :: clockReads rest
  | _ :: rest => clockReads rest

/-- The clock readings of a trace are non-decreasing: the trace is consistent
with a monotone device clock. -/
def clocksMono : List ℚ → Bool
  | a :: b :: rest => decide (a ≤ b) && clocksMono (b :: rest)
  | _ => true

/-- C4 counterexample: the claim says the cursor is *always* ≥ the output
device's clock, but after an interrupt the cursor is reset to 0 while the
clock keeps running: on the trace (enqueue a 2-second segment at clock 0,
interrupt) the cursor is 0 even though the next anchoring observes clock 1 —
a clock-monotone trace on which the cursor sits below the device clock. -/
theorem C4_counterexample :
    clocksMono
      (clockReads [Ev.preDecode 0, Ev.postDecodeOk 2, Ev.interrupted,
        Ev.preDecode 1]) = true
    ∧ (run SchedState.init
        [Ev.preDecode 0, Ev.postDecodeOk 2, Ev.interrupted]).nextStartTime
        < 1 := by decide

/-- C4 (amended): the cursor is non-decreasing across every scheduler event
except the interrupt reset (anchoring can only raise it, scheduling adds a
non-negative duration, decode failure and handle completion leave it
untouched); the interrupt resets it to 0; and immediately after each
anchoring it is ≥ the device-clock reading just observed — between an
interrupt and the next enqueue it may however lie below the running clock. -/
theorem C4_cursor_monotone_amended (s : SchedState) (now d : ℚ) (i : Nat)
    (hd : 0 ≤ d) :
    s.nextStartTime ≤ (step s (.preDecode now)).nextStartTime
    ∧ s.nextStartTime ≤ (step s (.postDecodeOk d)).nextStartTime
    ∧ (step s .postDecodeErr).nextStartTime = s.nextStartTime
    ∧ (step s (.ended i)).nextStartTime = s.nextStartTime
    ∧ (step s .interrupted).nextStartTime = 0
    ∧ now ≤ (step s (.preDecode now)).nextStartTime := by
  exact ⟨le_max_left _ _, le_add_of_nonneg_right hd, rfl, rfl, rfl,
    le_max_right _ _⟩

/-- Witness for C4 (amended) at the initial scheduler state, clock 2,
duration 3. -/
theorem C4_cursor_monotone_amended_witness :
    (0 : ℚ) ≤ 3
    ∧ (SchedState.init.nextStartTime
        ≤ (step SchedState.init (.preDecode 2)).nextStartTime
       ∧ SchedState.init.nextStartTime
           ≤ (step SchedState.init (.postDecodeOk 3)).nextStartTime
       ∧ (step SchedState.init .postDecodeErr).nextStartTime
           = SchedState.init.nextStartTime
       ∧ (step SchedState.init (.ended 0)).nextStartTime
           = SchedState.init.nextStartTime
       ∧ (step SchedState.init .interrupted).nextStartTime = 0
       ∧ (2 : ℚ) ≤ (step SchedState.init (.preDecode 2)).nextStartTime) :=
  ⟨by decide, C4_cursor_monotone_amended SchedState.init 2 3 0 (by decide)⟩

/-- C5: when the interrupt lands between an enqueue's anchoring step and the
completion of its asynchronous decode, the late-decoded segment is scheduled
at the reset cursor 0 (it becomes the start of new audio, since `start` rereads
`this.nextStartTime` after the await), the only active handle afterwards is
the new one, and every handle from before the interrupt has been stopped —
no orphan is left playing. -/
theorem C5_interrupt_during_decode (s : SchedState) (now d : ℚ)
    (hw : fresh s = true) :
    (step (step s (.preDecode now)) .interrupted).nextStartTime = 0
    ∧ (step (step (step s (.preDecode now)) .interrupted)
          (.postDecodeOk d)).srcs.head? = some ⟨s.counter, 0, d, false⟩
    ∧ (step (step (step s (.preDecode now)) .interrupted)
          (.postDecodeOk d)).active = [s.counter]
    ∧ allPrevStopped s
        (step (step (step s (.preDecode now)) .interrupted)
          (.postDecodeOk d)) = true := by
  have hfresh : ∀ i ∈ s.active, i < s.counter := by
    simp only [fresh, Bool.and_eq_true, List.all_eq_true, decide_eq_true_iff]
      at hw
    exact hw.1
  refine ⟨rfl, rfl, rfl, ?_⟩
  simp only [allPrevStopped, step, stopActive, List.all_cons, List.all_map,
    Bool.and_eq_true, List.all_eq_true]
  constructor
  · have : s.counter ∉ s.active := fun h => lt_irrefl _ (hfresh _ h)
    simp [this]
  · intro a _
    by_cases h : a.id ∈ s.active <;> simp [h]

/-- Witness for C5 at a scheduler state with one active handle (id 0, counter
1), clock 6 at the anchoring, late-decoded duration 2. -/
theorem C5_interrupt_during_decode_witness :
    fresh ⟨5, [0], [⟨0, 2, 3, false⟩], 1⟩ = true
    ∧ ((step (step ⟨5, [0], [⟨0, 2, 3, false⟩], 1⟩ (.preDecode 6))
          .interrupted).nextStartTime = 0
       ∧ (step (step (step ⟨5, [0], [⟨0, 2, 3, false⟩], 1⟩ (.preDecode 6))
             .interrupted) (.postDecodeOk 2)).srcs.head?
           = some ⟨1, 0, 2, false⟩
       ∧ (step (step (step ⟨5, [0], [⟨0, 2, 3, false⟩], 1⟩ (.preDecode 6))
             .interrupted) (.postDecodeOk 2)).active = [1]
       ∧ allPrevStopped ⟨5, [0], [⟨0, 2, 3, false⟩], 1⟩
           (step (step (step ⟨5, [0], [⟨0, 2, 3, false⟩], 1⟩ (.preDecode 6))
             .interrupted) (.postDecodeOk 2)) = true) :=
  ⟨by decide,
    C5_interrupt_during_decode ⟨5, [0], [⟨0, 2, 3, false⟩], 1⟩ 6 2 (by decide)⟩

/-- C6: `disconnect` is idempotent and safe from any state — applying it
twice equals applying it once, its result always has every resource the spec
names released (processor, source, stream, both audio contexts, playback
handles, cursor), and applying it to the never-connected initial state is a
no-op. -/
theorem C6_disconnect_idempotent :
    (∀ s : ServiceState, disconnect (disconnect s) = disconnect s)
    ∧ (∀ s : ServiceState, released (disconnect s))
    ∧ disconnect ServiceState.init = ServiceState.init := by
  refine ⟨fun s => ?_, fun s => ?_, by decide⟩
  · simp [disconnect, stopActive, Option.map_map, Function.comp]
  · simp [released, disconnect, stopActive]

/-- C8 counterexample: on microphone denial `connect` does reject and
propagate the error, but the claim's teardown clause fails — both audio
device contexts, created before the microphone request, remain held. -/
theorem C8_counterexample :
    (connectThroughMicAcquisition ServiceState.init false).2 = some ()
    ∧ (connectThroughMicAcquisition ServiceState.init false).1.outputCtx = true
    ∧ (connectThroughMicAcquisition ServiceState.init false).1.inputCtx
        = true := by decide

/-- C8 (amended): if microphone access is denied, `connect` rejects with the
propagated error from its single acquisition attempt (no retry) and holds no
microphone stream, but the input and output audio contexts (and the gain
node) created before the microphone request remain held; a subsequent
`disconnect` releases them. -/
theorem C8_mic_denied_amended (s : ServiceState) :
    (connectThroughMicAcquisition s false).2 = some ()
    ∧ (connectThroughMicAcquisition s false).1.stream = s.stream
    ∧ (connectThroughMicAcquisition s false).1.inputCtx = true
    ∧ (connectThroughMicAcquisition s false).1.outputCtx = true
    ∧ released (disconnect (connectThroughMicAcquisition s false).1) := by
  simp [connectThroughMicAcquisition, released, disconnect, stopActive]

/-- Concatenation of a list of fragment texts. -/
def concatAll : List String → String
  | [] => ""
  | t :: ts => t ++ concatAll ts

lemma applyTranscriptFragment_pending (pre : List ChatMsg) (u f : Bool)
    (t0 t : String) :
    applyTranscriptFragment (pre ++ [⟨u, t0, false⟩]) t u f
      = pre ++ [⟨u, t0 ++ t, f⟩] := by
  simp [applyTranscriptFragment, List.getLast?_concat]

lemma feedPending_pending (ts : List String) :
    ∀ (pre : List ChatMsg) (u : Bool) (t0 : String),
      feedPending (pre ++ [⟨u, t0, false⟩]) u ts
        = pre ++ [⟨u, t0 ++ concatAll ts, false⟩] := by
  induction ts with
  | nil => intro pre u t0; simp [feedPending, concatAll]
  | cons t rest ih =>
      intro pre u t0
      simp only [feedPending, List.foldl_cons]
      rw [applyTranscriptFragment_pending]
      have h := ih pre u (t0 ++ t)
      simp only [feedPending] at h
      rw [h, concatAll, ← String.append_assoc]

/-- C7: fragments of one speaker accumulate by concatenation into a single
utterance until a final fragment arrives, and the next fragment after a final
one starts a new utterance — both in general (any pending utterance, any
sequence of non-final fragments, a closing final fragment, then a non-blank
fragment) and on the spec's example ("你好" then "，我要报修" final yields one
final utterance "你好，我要报修"; a subsequent "冰箱" starts a new one). -/
theorem C7_transcript_accumulation (pre : List ChatMsg) (u : Bool)
    (t0 tf t' : String) (ts : List String) (h : isBlank t' = false) :
    feedPending (pre ++ [⟨u, t0, false⟩]) u ts
      = pre ++ [⟨u, t0 ++ concatAll ts, false⟩]
    ∧ applyTranscriptFragment (pre ++ [⟨u, t0 ++ concatAll ts, false⟩]) tf u
        true = pre ++ [⟨u, t0 ++ concatAll ts ++ tf, true⟩]
    ∧ applyTranscriptFragment (pre ++ [⟨u, t0 ++ concatAll ts ++ tf, true⟩])
        t' u false
      = pre ++ [⟨u, t0 ++ concatAll ts ++ tf, true⟩, ⟨u, t', false⟩]
    ∧ applyTranscriptFragment (applyTranscriptFragment [] "你好" true false)
        "，我要报修" true true = [⟨true, "你好，我要报修", true⟩]
    ∧ applyTranscriptFragment [⟨true, "你好，我要报修", true⟩] "冰箱" true false
      = [⟨true, "你好，我要报修", true⟩, ⟨true, "冰箱", false⟩] := by
  refine ⟨feedPending_pending ts pre u t0,
    applyTranscriptFragment_pending pre u true (t0 ++ concatAll ts) tf,
    ?_, by decide, by decide⟩
  simp [applyTranscriptFragment, List.getLast?_concat, h]

/-- Witness for C7: pending utterance "a", non-final fragment "b", closing
final fragment "c", then the non-blank fragment "d". -/
theorem C7_transcript_accumulation_witness :
    isBlank "d" = false
    ∧ (feedPending ([] ++ [⟨true, "a", false⟩]) true ["b"]
        = [] ++ [⟨true, "a" ++ concatAll ["b"], false⟩]
       ∧ applyTranscriptFragment ([] ++ [⟨true, "a" ++ concatAll ["b"], false⟩])
           "c" true true = [] ++ [⟨true, "a" ++ concatAll ["b"] ++ "c", true⟩]
       ∧ applyTranscriptFragment
           ([] ++ [⟨true, "a" ++ concatAll ["b"] ++ "c", true⟩]) "d" true false
         = [] ++ [⟨true, "a" ++ concatAll ["b"] ++ "c", true⟩,
             ⟨true, "d", false⟩]
       ∧ applyTranscriptFragment (applyTranscriptFragment [] "你好" true false)
           "，我要报修" true true = [⟨true, "你好，我要报修", true⟩]
       ∧ applyTranscriptFragment [⟨true, "你好，我要报修", true⟩] "冰箱" true
           false
         = [⟨true, "你好，我要报修", true⟩, ⟨true, "冰箱", false⟩]) :=
  ⟨by decide, C7_transcript_accumulation [] true "a" "c" "d" ["b"] (by decide)⟩

/-- C9: per inbound message at most one audio segment is considered, namely
the inline data of the first part of the model turn: the enqueued payload of
a message whose model turn has parts `p :: rest` equals that of the message
with parts `[p]` (audio in later parts is silently ignored), and a message
whose first part carries no audio enqueues nothing even when its second part
does. -/
theorem C9_only_first_part_audio (sc : ServerContent) (p : Part)
    (rest : List Part) (m : LiveServerMessage) :
    audioToEnqueue ⟨some { sc with modelTurn := some ⟨some (p :: rest)⟩ }⟩
      = audioToEnqueue ⟨some { sc with modelTurn := some ⟨some [p]⟩ }⟩
    ∧ (audioToEnqueue m).toList.length ≤ 1
    ∧ audioToEnqueue
        ⟨some { sc with
          modelTurn := some ⟨some [⟨none⟩, ⟨some ⟨some "QUJD"⟩⟩]⟩ }⟩
      = none := by
  refine ⟨?_, ?_, ?_⟩
  · simp [audioToEnqueue, extractBase64Audio]
  · cases h : audioToEnqueue m <;> simp
  · simp [audioToEnqueue, extractBase64Audio]

/-- C10: a fragment whose text trims to empty, arriving when there is no
pending non-final same-speaker utterance to extend, is discarded: the
transcript is unchanged, and in particular the fragment's `isFinal` flag has
no effect. -/
theorem C10_blank_fragment_discarded (msgs : List ChatMsg) (t : String)
    (u f : Bool) (hnp : noPending msgs u = true) (hb : isBlank t = true) :
    applyTranscriptFragment msgs t u f = msgs
    ∧ applyTranscriptFragment msgs t u true
        = applyTranscriptFragment msgs t u false := by
  have key : ∀ g : Bool, applyTranscriptFragment msgs t u g = msgs := by
    intro g
    unfold applyTranscriptFragment noPending at *
    cases hl : msgs.getLast? with
    | none => simp [hl, hb]
    | some lastMsg =>
        rw [hl] at hnp
        have hcond : (lastMsg.role == u && !lastMsg.isFinal) = false := by
          cases hr : lastMsg.role == u <;> cases hf : lastMsg.isFinal <;>
            simp_all [bne]
        simp [hl, hcond, hb]
  exact ⟨key f, (key true).trans (key false).symm⟩

/-- Witness for C10: a whitespace-only fragment fed to the empty transcript
with `isFinal = true`. -/
theorem C10_blank_fragment_discarded_witness :
    noPending ([] : List ChatMsg) true = true
    ∧ isBlank " " = true
    ∧ (applyTranscriptFragment [] " " true true = []
       ∧ applyTranscriptFragment [] " " true true
           = applyTranscriptFragment [] " " true false) :=
  ⟨by decide, by decide,
    C10_blank_fragment_discarded [] " " true true (by decide) (by decide)⟩

end HomeApplianceService
